import Mathlib

/-!
Shallow embedding of the twamp-measurements ingestion pipeline (src/main.go).

The program watches a directory for new gzip-compressed CSV files, parses each
into per-row records (column name to cell value), and bulk-loads them into an
Elasticsearch collection.  External collaborators (the filesystem, the gzip
decoder, the csv reader's low-level row source, JSON marshalling and the
Elasticsearch transport) are modelled as environment records whose fields give
the outcome each collaborator would produce; the control flow of main.go over
those outcomes is translated faithfully.
-/

namespace TwampIngest

/-- Records are Go maps from column name to cell value
(map[string]interface \x7bthe values here are always strings\x7d); we model the
map as an association list where each key occurs at most once, maintained by
the insert operation below. -/
abbrev Record := List (String × String)

/-- Go map assignment m[k] = v: overwrite the binding when the key is present,
otherwise add a new binding. -/
def mapInsert (m : Record) (k v : String) : Record :=
  if m.any (fun p => p.1 == k) then
    m.map (fun p => if p.1 == k then (k, v) else p)
  else
    m ++ [(k, v)]

/-- Loop body of processGzipFile lines 131-133: for j, header := range headers,
dataMap[header] = row[j].  Indexing row[j] out of range is a Go panic, modelled
as none. -/
def mapRowGo (row : List String) : List String → Nat → Record → Option Record
  | [], _, acc => some acc
  | h :: hs, j, acc =>
    match row[j]? with
    | none => none
    | some v => mapRowGo row hs (j + 1) (mapInsert acc h v)

/-- Record built for one data row (main.go lines 130-133). -/
def mapRow (headers row : List String) : Option Record :=
  mapRowGo row headers 0 []

/-- Record Mapper over all rows (main.go lines 129-135): one Record per data
row, in file order; the first out-of-range access aborts everything (panic). -/
def mapRows (headers : List String) : List (List String) → Option (List Record)
  | [] => some []
  | row :: rest =>
    match mapRow headers row with
    | none => none
    | some rec =>
      match mapRows headers rest with
      | none => none
      | some l => some (rec :: l)

/-- Inserting a key that is not already bound appends the binding. -/
lemma mapInsert_of_not_mem (m : Record) (k v : String)
    (h : ∀ p ∈ m, p.1 ≠ k) : mapInsert m k v = m ++ [(k, v)] := by
  have hany : m.any (fun p => p.1 == k) = false := by
    rw [List.any_eq_false]
    intro p hp
    simpa using h p hp
  simp [mapInsert, hany]

/-- Core computation of the mapper loop: with pairwise-distinct remaining
headers whose indices all fall inside the row, the loop extends the
accumulator with the positional zip of headers and row cells. -/
lemma mapRowGo_eq (row : List String) :
    ∀ (hs : List String) (j : Nat) (acc : Record),
      hs.Nodup → j + hs.length ≤ row.length →
      (∀ h ∈ hs, ∀ p ∈ acc, p.1 ≠ h) →
      mapRowGo row hs j acc = some (acc ++ hs.zip (row.drop j))
  | [], j, acc, _, _, _ => by simp [mapRowGo]
  | h :: hs, j, acc, hnd, hle, hdisj => by
    have hj : j < row.length := by
      simp only [List.length_cons] at hle
      omega
    have hget : row[j]? = some row[j] := List.getElem?_eq_getElem hj
    have hins : mapInsert acc h row[j] = acc ++ [(h, row[j])] :=
      mapInsert_of_not_mem acc h row[j]
        (fun p hp => hdisj h (List.mem_cons_self h hs) p hp)
    have hnd' : hs.Nodup := (List.nodup_cons.mp hnd).2
    have hnotmem : h ∉ hs := (List.nodup_cons.mp hnd).1
    have hle' : (j + 1) + hs.length ≤ row.length := by
      simp only [List.length_cons] at hle
      omega
    have hdisj' : ∀ h' ∈ hs, ∀ p ∈ acc ++ [(h, row[j])], p.1 ≠ h' := by
      intro h' hh' p hp
      rcases List.mem_append.mp hp with hpacc | hpnew
      · exact hdisj h' (List.mem_cons_of_mem h hh') p hpacc
      · have : p = (h, row[j]) := List.mem_singleton.mp hpnew
        subst this
        intro hcontra
        change h = h' at hcontra
        exact hnotmem (by rw [hcontra]; exact hh')
    have ih := mapRowGo_eq row hs (j + 1) (acc ++ [(h, row[j])]) hnd' hle' hdisj'
    have hdrop : row.drop j = row[j] :: row.drop (j + 1) :=
      List.drop_eq_getElem_cons hj
    simp only [mapRowGo, hget]
    rw [hins, ih, hdrop, List.zip_cons_cons]
    simp

/-- C1: for a file whose header row has pairwise-distinct names and a data row
of the same arity, the Record produced is exactly the positional zip of the
headers with the row's cells. -/
theorem c1_header_framing (headers row : List String)
    (hnd : headers.Nodup) (hlen : row.length = headers.length) :
    mapRow headers row = some (headers.zip row) := by
  have h := mapRowGo_eq row headers 0 [] hnd (by omega) (by simp)
  simpa [mapRow] using h

/-- Witness for C1 at the spec's example header and first data row. -/
theorem c1_header_framing_witness :
    mapRow ["session_id", "source_port", "@timestamp"]
        ["1", "5000", "2024-01-01T00:00:00Z"] =
      some [("session_id", "1"), ("source_port", "5000"),
        ("@timestamp", "2024-01-01T00:00:00Z")] :=
  c1_header_framing ["session_id", "source_port", "@timestamp"]
    ["1", "5000", "2024-01-01T00:00:00Z"] (by decide) (by decide)

/-- Bulk request handed to the Elasticsearch client (esapi.BulkRequest,
main.go lines 158-161): the accumulated payload body and the refresh flag. -/
structure BulkRequest where
  body : String
  refresh : String
deriving DecidableEq, Repr

/-- Outcome of req.Do: either a transport-level failure, or a response with
its top-level error indicator and its body (the only parts the code reads). -/
inductive TransportResult where
  | failure (err : String)
  | response (isError : Bool) (body : String)

/-- Collaborator environment of bulkInsertToElasticsearch: JSON marshalling
(encoding/json), the network send (req.Do against the client) and the JSON
decoding of a response body. -/
structure BulkEnv where
  marshal : Record → Except String String
  send : BulkRequest → TransportResult
  decodeBody : String → Except String String

/-- Result of bulkInsertToElasticsearch, one constructor per return path of
main.go lines 140-179. -/
inductive BulkOutcome where
  | serializationError (msg : String)
  | transportError (msg : String)
  | responseParseError (msg : String)
  | bulkError (detail : String)
  | ok (count : Nat)
deriving DecidableEq, Repr

/-- Discriminator for the serialization-failure return path. -/
def BulkOutcome.isSerializationErr : BulkOutcome → Bool
  | .serializationError _ => true
  | _ => false

/-- Count of documents reported accepted: present only on the success path. -/
def BulkOutcome.acceptedCount : BulkOutcome → Option Nat
  | .ok n => some n
  | _ => none

/-- Create-document directive naming the target collection, exactly the meta
line of main.go line 146 before its trailing newline. -/
def createDirective : String :=
  "\x7b \"create\" : \x7b \"_index\" : \"twamp-data\" \x7d \x7d"

/-- Two payload lines contributed by one marshalled Record: the directive
line, then the serialized document line. -/
def payloadFor (d : String) : String :=
  createDirective ++ "\n" ++ d ++ "\n"

/-- Concatenation of the per-Record payload chunks, in batch order. -/
def concatPayload (f : Record → String) : List Record → String
  | [] => ""
  | r :: rs => f r ++ concatPayload f rs

/-- Buffer-building loop of main.go lines 143-156: per Record, append the meta
line and the serialized document (each newline-terminated) to the buffer;
a marshalling error aborts the loop and the whole call. -/
def buildBuf (marshal : Record → Except String String) :
    List Record → String → Except String String
  | [], buf => Except.ok buf
  | r :: rs, buf =>
    match marshal r with
    | Except.error e => Except.error ("error marshalling dataMap: " ++ e)
    | Except.ok d =>
      buildBuf marshal rs (buf ++ (createDirective ++ "\n") ++ (d ++ "\n"))

/-- Batch Indexer (main.go lines 140-179): build the bulk payload, submit it
as one request with refresh set, and interpret the response.  The first
component of the result is the list of requests actually handed to the
transport. -/
def bulkInsertToElasticsearch (env : BulkEnv) (dataList : List Record) :
    List BulkRequest × BulkOutcome :=
  match buildBuf env.marshal dataList "" with
  | Except.error e => ([], BulkOutcome.serializationError e)
  | Except.ok buf =>
    let req : BulkRequest := { body := buf, refresh := "true" }
    match env.send req with
    | TransportResult.failure e =>
      ([req], BulkOutcome.transportError ("failure indexing batch: " ++ e))
    | TransportResult.response true body =>
      match env.decodeBody body with
      | Except.error e =>
        ([req], BulkOutcome.responseParseError ("error parsing the response body: " ++ e))
      | Except.ok rb => ([req], BulkOutcome.bulkError rb)
    | TransportResult.response false _ => ([req], BulkOutcome.ok dataList.length)

/-- When every Record marshals, the buffer is the accumulator followed by the
two payload lines of each Record, in order. -/
lemma buildBuf_ok (m : Record → Except String String) (ms : Record → String) :
    ∀ (rs : List Record) (buf : String),
      (∀ r ∈ rs, m r = Except.ok (ms r)) →
      buildBuf m rs buf =
        Except.ok (buf ++ concatPayload (fun r => payloadFor (ms r)) rs)
  | [], buf, _ => by simp [buildBuf, concatPayload]
  | r :: rs, buf, hm => by
    have hr : m r = Except.ok (ms r) := hm r (List.mem_cons_self r rs)
    have ih := buildBuf_ok m ms rs
      (buf ++ (createDirective ++ "\n") ++ (ms r ++ "\n"))
      (fun r' hr' => hm r' (List.mem_cons_of_mem r hr'))
    simp only [buildBuf, hr, ih, concatPayload, payloadFor]
    simp [String.append_assoc]

/-- When every Record marshals, the buffer-building loop succeeds. -/
lemma buildBuf_isOk (m : Record → Except String String) :
    ∀ (rs : List Record) (buf : String),
      (∀ r ∈ rs, ∃ d, m r = Except.ok d) →
      ∃ out, buildBuf m rs buf = Except.ok out
  | [], buf, _ => ⟨buf, rfl⟩
  | r :: rs, buf, hm => by
    obtain ⟨d, hd⟩ := hm r (List.mem_cons_self r rs)
    obtain ⟨out, hout⟩ := buildBuf_isOk m rs
      (buf ++ (createDirective ++ "\n") ++ (d ++ "\n"))
      (fun r' hr' => hm r' (List.mem_cons_of_mem r hr'))
    exact ⟨out, by simp [buildBuf, hd, hout]⟩

/-- When some Record fails to marshal, the buffer-building loop returns an
error. -/
lemma buildBuf_error (m : Record → Except String String) :
    ∀ (rs : List Record) (buf : String),
      (∃ r ∈ rs, ∃ e, m r = Except.error e) →
      ∃ msg, buildBuf m rs buf = Except.error msg
  | [], _, h => by simp at h
  | r :: rs, buf, h => by
    cases hr : m r with
    | error e => exact ⟨"error marshalling dataMap: " ++ e, by simp [buildBuf, hr]⟩
    | ok d =>
      obtain ⟨r₀, hr₀, e₀, he₀⟩ := h
      rcases List.mem_cons.mp hr₀ with heq | hmem
      · subst heq
        rw [hr] at he₀
        exact absurd he₀ (by simp)
      · obtain ⟨msg, hmsg⟩ := buildBuf_error m rs
          (buf ++ (createDirective ++ "\n") ++ (d ++ "\n")) ⟨r₀, hmem, e₀, he₀⟩
        exact ⟨msg, by simp [buildBuf, hr, hmsg]⟩

/-- C2: for a non-empty batch in which every Record marshals, exactly one bulk
request is handed to the transport; its body is, per Record in order, the
create-document directive line followed by the serialized Record line, and its
refresh flag is set to true. -/
theorem c2_bulk_payload (env : BulkEnv) (dataList : List Record)
    (ms : Record → String) (hne : dataList ≠ [])
    (hm : ∀ r ∈ dataList, env.marshal r = Except.ok (ms r)) :
    (bulkInsertToElasticsearch env dataList).1 =
      [{ body := concatPayload (fun r => payloadFor (ms r)) dataList,
         refresh := "true" }] := by
  have hb := buildBuf_ok env.marshal ms dataList "" hm
  have hempty : ("" : String) ++ concatPayload (fun r => payloadFor (ms r)) dataList
      = concatPayload (fun r => payloadFor (ms r)) dataList := by
    simp
  rw [hempty] at hb
  cases hsend : env.send
      { body := concatPayload (fun r => payloadFor (ms r)) dataList,
        refresh := "true" } with
  | failure e => simp [bulkInsertToElasticsearch, hb, hsend]
  | response isErr body =>
    cases isErr with
    | true =>
      cases hdec : env.decodeBody body with
      | error e => simp [bulkInsertToElasticsearch, hb, hsend, hdec]
      | ok rb => simp [bulkInsertToElasticsearch, hb, hsend, hdec]
    | false => simp [bulkInsertToElasticsearch, hb, hsend]

/-- C3: when any Record of the batch fails to marshal, the call returns a
serialization error and hands no request at all to the transport. -/
theorem c3_serialization_atomicity (env : BulkEnv) (dataList : List Record)
    (h : ∃ r ∈ dataList, ∃ e, env.marshal r = Except.error e) :
    (bulkInsertToElasticsearch env dataList).1 = [] ∧
      BulkOutcome.isSerializationErr (bulkInsertToElasticsearch env dataList).2
        = true := by
  obtain ⟨msg, hmsg⟩ := buildBuf_error env.marshal dataList "" h
  constructor
  · simp [bulkInsertToElasticsearch, hmsg]
  · simp [bulkInsertToElasticsearch, hmsg, BulkOutcome.isSerializationErr]

/-- C4: when the payload builds, the response arrives, its top-level error
flag is set and its body decodes, the call returns a bulk error carrying the
decoded body as its detail, and reports no accepted-document count. -/
theorem c4_error_surfacing (env : BulkEnv) (dataList : List Record)
    (buf body rb : String)
    (hb : buildBuf env.marshal dataList "" = Except.ok buf)
    (hsend : env.send { body := buf, refresh := "true" }
      = TransportResult.response true body)
    (hdec : env.decodeBody body = Except.ok rb) :
    (bulkInsertToElasticsearch env dataList).2 = BulkOutcome.bulkError rb ∧
      BulkOutcome.acceptedCount (bulkInsertToElasticsearch env dataList).2
        = none := by
  constructor
  · simp [bulkInsertToElasticsearch, hb, hsend, hdec]
  · simp [bulkInsertToElasticsearch, hb, hsend, hdec, BulkOutcome.acceptedCount]

/-- Concrete environment whose collaborators all succeed. -/
def okEnv : BulkEnv where
  marshal := fun _ => Except.ok ("J")
  send := fun _ => TransportResult.response false ("RB")
  decodeBody := fun s => Except.ok s

/-- Concrete environment whose marshalling always fails. -/
def errMarshalEnv : BulkEnv where
  marshal := fun _ => Except.error ("boom")
  send := fun _ => TransportResult.response false ("RB")
  decodeBody := fun s => Except.ok s

/-- Concrete environment whose response carries the top-level error flag. -/
def errFlagEnv : BulkEnv where
  marshal := fun _ => Except.ok ("J")
  send := fun _ => TransportResult.response true ("EB")
  decodeBody := fun s => Except.ok s

/-- Witness for C2 on a one-Record batch in the all-success environment. -/
theorem c2_bulk_payload_witness :
    (bulkInsertToElasticsearch okEnv [[("a", "1")]]).1 =
      [{ body := concatPayload (fun r => payloadFor ("J")) [[("a", "1")]],
         refresh := "true" }] :=
  c2_bulk_payload okEnv [[("a", "1")]] (fun _ => "J") (by simp)
    (fun _ _ => rfl)

/-- Witness for C3 on a one-Record batch whose marshalling fails. -/
theorem c3_serialization_atomicity_witness :
    (bulkInsertToElasticsearch errMarshalEnv [[("a", "1")]]).1 = [] ∧
      BulkOutcome.isSerializationErr
        (bulkInsertToElasticsearch errMarshalEnv [[("a", "1")]]).2 = true :=
  c3_serialization_atomicity errMarshalEnv [[("a", "1")]]
    ⟨[("a", "1")], by simp, "boom", rfl⟩

/-- Witness for C4 on the empty batch against an error-flag response. -/
theorem c4_error_surfacing_witness :
    (bulkInsertToElasticsearch errFlagEnv []).2 = BulkOutcome.bulkError ("EB") ∧
      BulkOutcome.acceptedCount (bulkInsertToElasticsearch errFlagEnv []).2
        = none :=
  c4_error_surfacing errFlagEnv [] "" "EB" "EB" rfl rfl rfl

/-- Collaborator outcomes for one candidate file: the result of os.Open, of
gzip.NewReader, of the header read, whether reading the remaining csv rows
errors for a reason other than field-count enforcement, and the raw cell rows
the csv reader would deliver. -/
structure FileEnv where
  openErr : Option String
  gzipErr : Option String
  headerRead : Except String (List String)
  csvErr : Bool
  rawRows : List (List String)

/-- Model of encoding/csv ReadAll after the header read: the reader's
FieldsPerRecord was fixed by the first (header) read, so any subsequent row
with a different cell count makes ReadAll return nil rows and an error; other
read errors (csvErr) do the same.  none is the error case. -/
def readAllRows (fieldsPerRecord : Nat) (csvErr : Bool)
    (raws : List (List String)) : Option (List (List String)) :=
  if csvErr then none
  else if raws.all (fun r => r.length == fieldsPerRecord) then some raws
  else none

/-- Result of processGzipFile: log.Fatal termination, a Go panic, or normal
completion carrying the requests handed to the transport and the indexer's
outcome (which the caller ignores). -/
inductive ProcResult where
  | fatal (msg : String)
  | panicked (msg : String)
  | done (requests : List BulkRequest) (outcome : BulkOutcome)
deriving DecidableEq, Repr

/-- Requests handed to the transport, when the handler ran to completion. -/
def ProcResult.requestTrace : ProcResult → Option (List BulkRequest)
  | .done reqs _ => some reqs
  | _ => none

/-- Indexer outcome, when the handler ran to completion. -/
def ProcResult.finalOutcome : ProcResult → Option BulkOutcome
  | .done _ out => some out
  | _ => none

/-- Per-file handler (main.go lines 104-138): open, decompress, read the
header, read all data rows discarding the error (rows, _ := ReadAll, so an
error leaves nil rows), map rows to Records and hand the batch to the Batch
Indexer unconditionally. -/
def processGzipFile (fenv : FileEnv) (benv : BulkEnv) : ProcResult :=
  match fenv.openErr with
  | some e => ProcResult.fatal e
  | none =>
    match fenv.gzipErr with
    | some e => ProcResult.fatal e
    | none =>
      match fenv.headerRead with
      | Except.error e => ProcResult.fatal e
      | Except.ok headers =>
        let rows := (readAllRows headers.length fenv.csvErr fenv.rawRows).getD []
        match mapRows headers rows with
        | none => ProcResult.panicked ("runtime error: index out of range")
        | some dataList =>
          let res := bulkInsertToElasticsearch benv dataList
          ProcResult.done res.1 res.2

/-- Mapper loop success: when every index it will touch is inside the row, the
loop returns some Record. -/
lemma mapRowGo_isSome (row : List String) :
    ∀ (hs : List String) (j : Nat) (acc : Record),
      j + hs.length ≤ row.length → ∃ rec, mapRowGo row hs j acc = some rec
  | [], _, acc, _ => ⟨acc, rfl⟩
  | h :: hs, j, acc, hle => by
    have hj : j < row.length := by
      simp only [List.length_cons] at hle
      omega
    have hget : row[j]? = some row[j] := List.getElem?_eq_getElem hj
    obtain ⟨rec, hrec⟩ := mapRowGo_isSome row hs (j + 1)
      (mapInsert acc h row[j]) (by simp only [List.length_cons] at hle; omega)
    exact ⟨rec, by simp [mapRowGo, hget, hrec]⟩

/-- Mapper loop failure: with at least one header left and the row too short
for the remaining indices, the loop hits an out-of-range access. -/
lemma mapRowGo_none (row : List String) :
    ∀ (hs : List String) (j : Nat) (acc : Record),
      hs ≠ [] → row.length < j + hs.length → mapRowGo row hs j acc = none
  | [], _, _, hne, _ => absurd rfl hne
  | h :: hs, j, acc, _, hlt => by
    by_cases hj : j < row.length
    · have hget : row[j]? = some row[j] := List.getElem?_eq_getElem hj
      have hne' : hs ≠ [] := by
        intro hcon
        subst hcon
        simp only [List.length_cons, List.length_nil] at hlt
        omega
      have ih := mapRowGo_none row hs (j + 1) (mapInsert acc h row[j]) hne'
        (by simp only [List.length_cons] at hlt; omega)
      simp [mapRowGo, hget, ih]
    · have hget : row[j]? = none := by
        rw [List.getElem?_eq_none_iff]
        omega
      simp [mapRowGo, hget]

/-- Record Mapper fault: a data row strictly shorter than the header makes the
mapper index out of range. -/
lemma mapRow_none (headers row : List String)
    (hlt : row.length < headers.length) : mapRow headers row = none := by
  have hne : headers ≠ [] := by
    intro hcon
    subst hcon
    simp at hlt
  exact mapRowGo_none row headers 0 [] hne (by omega)

/-- Record Mapper on rows that are long enough: one Record per data row. -/
lemma mapRows_length (headers : List String) :
    ∀ (rows : List (List String)),
      (∀ row ∈ rows, headers.length ≤ row.length) →
      ∃ l, mapRows headers rows = some l ∧ l.length = rows.length
  | [], _ => ⟨[], rfl, rfl⟩
  | row :: rest, hlen => by
    obtain ⟨rec, hrec⟩ := mapRowGo_isSome row headers 0 []
      (by have := hlen row (List.mem_cons_self row rest); omega)
    obtain ⟨l, hl, hll⟩ := mapRows_length headers rest
      (fun r hr => hlen r (List.mem_cons_of_mem row hr))
    refine ⟨rec :: l, ?_, by simp [hll]⟩
    simp [mapRows, mapRow, hrec, hl]

/-- ReadAll model on well-formed input: all rows match the enforced arity, so
every raw row is delivered. -/
lemma readAllRows_ok (k : Nat) (raws : List (List String))
    (ha : ∀ r ∈ raws, r.length = k) :
    readAllRows k false raws = some raws := by
  have hall : raws.all (fun r => r.length == k) = true := by
    rw [List.all_eq_true]
    intro r hr
    simpa using ha r hr
  simp [readAllRows, hall]

/-- ReadAll model on degenerate input: no rows at all, a read error, or an
arity mismatch each leave the handler with an empty row list, because the
returned error is discarded and the nil rows are used. -/
lemma readAllRows_getD_empty (k : Nat) (csvErr : Bool)
    (raws : List (List String))
    (h : raws = [] ∨ csvErr = true ∨ ∃ r ∈ raws, r.length ≠ k) :
    (readAllRows k csvErr raws).getD [] = [] := by
  rcases h with hnil | herr | ⟨r, hr, hrk⟩
  · subst hnil
    cases csvErr <;> simp [readAllRows]
  · subst herr
    simp [readAllRows]
  · cases csvErr with
    | true => simp [readAllRows]
    | false =>
      have hall : raws.all (fun r => r.length == k) = false := by
        rw [List.all_eq_false]
        exact ⟨r, hr, by simpa using hrk⟩
      simp [readAllRows, hall]

/-- Batch Indexer on the empty batch: the loop writes nothing, and the empty
buffer is still submitted as one bulk request with refresh set. -/
lemma bulkInsert_nil_trace (benv : BulkEnv) :
    (bulkInsertToElasticsearch benv []).1 =
      [{ body := "", refresh := "true" }] := by
  cases hsend : benv.send { body := "", refresh := "true" } with
  | failure e => simp [bulkInsertToElasticsearch, buildBuf, hsend]
  | response isErr body =>
    cases isErr with
    | true =>
      cases hdec : benv.decodeBody body with
      | error e => simp [bulkInsertToElasticsearch, buildBuf, hsend, hdec]
      | ok rb => simp [bulkInsertToElasticsearch, buildBuf, hsend, hdec]
    | false => simp [bulkInsertToElasticsearch, buildBuf, hsend]

/-- C5: on a well-formed file (all collaborators succeed, every data row has
the header's arity) the handler completes with a success outcome reporting
exactly one accepted Record per data row, and the Record Mapper produces
exactly one Record per data row. -/
theorem c5_row_count (fenv : FileEnv) (benv : BulkEnv) (headers : List String)
    (ho : fenv.openErr = none) (hg : fenv.gzipErr = none)
    (hh : fenv.headerRead = Except.ok headers)
    (hc : fenv.csvErr = false)
    (ha : ∀ row ∈ fenv.rawRows, row.length = headers.length)
    (hm : ∀ r, ∃ d, benv.marshal r = Except.ok d)
    (hsend : ∀ req, ∃ body, benv.send req = TransportResult.response false body) :
    ProcResult.finalOutcome (processGzipFile fenv benv)
        = some (BulkOutcome.ok fenv.rawRows.length) ∧
      (mapRows headers
          ((readAllRows headers.length fenv.csvErr fenv.rawRows).getD [])).map
        List.length = some fenv.rawRows.length := by
  have hrows : (readAllRows headers.length fenv.csvErr fenv.rawRows).getD []
      = fenv.rawRows := by
    rw [hc, readAllRows_ok headers.length fenv.rawRows ha]
    rfl
  obtain ⟨l, hl, hll⟩ := mapRows_length headers fenv.rawRows
    (fun row hr => le_of_eq (ha row hr).symm)
  obtain ⟨buf, hbuf⟩ := buildBuf_isOk benv.marshal l "" (fun r _ => hm r)
  obtain ⟨body, hbody⟩ := hsend { body := buf, refresh := "true" }
  have hbulk : (bulkInsertToElasticsearch benv l).2 = BulkOutcome.ok l.length := by
    simp [bulkInsertToElasticsearch, hbuf, hbody]
  constructor
  · simp only [processGzipFile, ho, hg, hh, hrows, hl]
    simp [ProcResult.finalOutcome, hbulk, hll]
  · rw [hrows, hl]
    simp [hll]

/-- Concrete file whose single data row is shorter than its header. -/
def fenvShort : FileEnv :=
  { openErr := none, gzipErr := none, headerRead := Except.ok ["a", "b"],
    csvErr := false, rawRows := [["1"]] }

/-- C7 counterexample: processing a file whose data row has fewer cells than
the header does not fault — the csv reader's arity enforcement errors first,
the discarded error leaves zero rows, and the handler completes with an empty
bulk submission reporting zero accepted Records. -/
theorem c7_short_row_counterexample :
    processGzipFile fenvShort okEnv =
      ProcResult.done [{ body := "", refresh := "true" }] (BulkOutcome.ok 0) := by
  rfl

/-- C7 amended: the Record Mapper in isolation does index out of range on a
row shorter than the header, but the pipeline never reaches it with such a
row: a file containing one is processed without fault into an empty batch,
submitted as one empty-bodied bulk request. -/
theorem c7_arity_no_fault (fenv : FileEnv) (benv : BulkEnv)
    (headers row : List String)
    (ho : fenv.openErr = none) (hg : fenv.gzipErr = none)
    (hh : fenv.headerRead = Except.ok headers)
    (hmem : row ∈ fenv.rawRows) (hlt : row.length < headers.length) :
    mapRow headers row = none ∧
      ProcResult.requestTrace (processGzipFile fenv benv)
        = some [{ body := "", refresh := "true" }] := by
  refine ⟨mapRow_none headers row hlt, ?_⟩
  have hrows : (readAllRows headers.length fenv.csvErr fenv.rawRows).getD []
      = [] :=
    readAllRows_getD_empty headers.length fenv.csvErr fenv.rawRows
      (Or.inr (Or.inr ⟨row, hmem, by omega⟩))
  simp only [processGzipFile, ho, hg, hh, hrows]
  simp [mapRows, ProcResult.requestTrace, bulkInsert_nil_trace benv]

/-- Witness for C7's amended theorem at the concrete short-row file. -/
theorem c7_arity_no_fault_witness :
    mapRow ["a", "b"] ["1"] = none ∧
      ProcResult.requestTrace (processGzipFile fenvShort okEnv)
        = some [{ body := "", refresh := "true" }] :=
  c7_arity_no_fault fenvShort okEnv ["a", "b"] ["1"] rfl rfl rfl
    (by simp [fenvShort]) (by decide)

/-- C9: when the candidate file cannot be opened, the per-file handler
terminates the whole process (log.Fatal) instead of logging and skipping. -/
theorem c9_open_failure_fatal (fenv : FileEnv) (benv : BulkEnv) (e : String)
    (ho : fenv.openErr = some e) :
    processGzipFile fenv benv = ProcResult.fatal e := by
  simp [processGzipFile, ho]

/-- Concrete file that cannot be opened. -/
def fenvOpenErr : FileEnv :=
  { openErr := some ("no such file"), gzipErr := none,
    headerRead := Except.ok [], csvErr := false, rawRows := [] }

/-- Witness for C9 at a concrete unopenable file. -/
theorem c9_open_failure_fatal_witness :
    processGzipFile fenvOpenErr okEnv = ProcResult.fatal ("no such file") :=
  c9_open_failure_fatal fenvOpenErr okEnv "no such file" rfl

/-- C10: whenever decoding leaves an empty record list — a header-only file, a
row-reading error, or an arity mismatch whose ReadAll error is discarded — the
Batch Indexer is still invoked and one bulk request with an empty body is
submitted. -/
theorem c10_empty_batch_submitted (fenv : FileEnv) (benv : BulkEnv)
    (headers : List String)
    (ho : fenv.openErr = none) (hg : fenv.gzipErr = none)
    (hh : fenv.headerRead = Except.ok headers)
    (hempty : fenv.rawRows = [] ∨ fenv.csvErr = true ∨
      ∃ row ∈ fenv.rawRows, row.length ≠ headers.length) :
    ProcResult.requestTrace (processGzipFile fenv benv)
      = some [{ body := "", refresh := "true" }] := by
  have hrows : (readAllRows headers.length fenv.csvErr fenv.rawRows).getD []
      = [] :=
    readAllRows_getD_empty headers.length fenv.csvErr fenv.rawRows hempty
  simp only [processGzipFile, ho, hg, hh, hrows]
  simp [mapRows, ProcResult.requestTrace, bulkInsert_nil_trace benv]

/-- Concrete file containing only a header row. -/
def fenvHeaderOnly : FileEnv :=
  { openErr := none, gzipErr := none, headerRead := Except.ok ["a", "b"],
    csvErr := false, rawRows := [] }

/-- Witness for C10 at a concrete header-only file. -/
theorem c10_empty_batch_submitted_witness :
    ProcResult.requestTrace (processGzipFile fenvHeaderOnly okEnv)
      = some [{ body := "", refresh := "true" }] :=
  c10_empty_batch_submitted fenvHeaderOnly okEnv ["a", "b"] rfl rfl rfl
    (Or.inl rfl)

/-- Concrete well-formed file with one-column header and two data rows. -/
def fenvTwoRows : FileEnv :=
  { openErr := none, gzipErr := none, headerRead := Except.ok ["a"],
    csvErr := false, rawRows := [["1"], ["2"]] }

/-- Witness for C5 at a concrete two-row file in the all-success
environment. -/
theorem c5_row_count_witness :
    ProcResult.finalOutcome (processGzipFile fenvTwoRows okEnv)
        = some (BulkOutcome.ok fenvTwoRows.rawRows.length) ∧
      (mapRows ["a"]
          ((readAllRows (List.length ["a"]) fenvTwoRows.csvErr
            fenvTwoRows.rawRows).getD [])).map
        List.length = some fenvTwoRows.rawRows.length :=
  c5_row_count fenvTwoRows okEnv ["a"] rfl rfl rfl rfl
    (by intro row hr; fin_cases hr <;> rfl)
    (fun r => ⟨"J", rfl⟩) (fun req => ⟨"RB", rfl⟩)

/-- Create bit of the fsnotify operation mask (fsnotify.Create = 1 << 0). -/
def opCreate : Nat := 1

/-- Filesystem event as the watch loop sees it: an operation bitmask and the
file's name. -/
structure FsEvent where
  op : Nat
  name : String

/-- Dispatch condition of the watch loop (main.go line 81): the event's
operation mask contains the Create bit and its name ends in .gz; only then is
processGzipFile invoked, otherwise the event is silently ignored. -/
def shouldProcess (e : FsEvent) : Bool :=
  (e.op &&& opCreate == opCreate) && e.name.endsWith (".gz")

/-- C6: for a file-creation event (the Create bit is set in its operation
mask), the ingestion pipeline is invoked exactly when the file name ends in
.gz; creation events for other names are ignored. -/
theorem c6_suffix_filtering (e : FsEvent)
    (hcreate : e.op &&& opCreate = opCreate) :
    shouldProcess e = true ↔ e.name.endsWith (".gz") = true := by
  simp [shouldProcess, hcreate]

/-- Witness for C6 at a concrete creation event for a matching file, checking
both directions of the equivalence on concrete names. -/
theorem c6_suffix_filtering_witness :
    (shouldProcess { op := 1, name := "probe_001.gz" } = true ↔
      String.endsWith ("probe_001.gz") (".gz") = true) ∧
      (shouldProcess { op := 1, name := "probe_001.txt" } = true ↔
        String.endsWith ("probe_001.txt") (".gz") = true) :=
  ⟨c6_suffix_filtering { op := 1, name := "probe_001.gz" } rfl,
    c6_suffix_filtering { op := 1, name := "probe_001.txt" } rfl⟩

/-- Startup result: either a log.Fatal exit at some startup stage, or the
process reaches its steady state (watch loop running, main blocked). -/
inductive StartupOutcome where
  | fatalExit (msg : String)
  | running
deriving DecidableEq, Repr

/-- Startup sequence of main (main.go lines 38-101) over the outcomes of its
collaborators: loading .env (log.Fatal on error), constructing the
Elasticsearch client (error only log.Printf-logged, control flow continues),
creating the watcher (log.Fatal on error) and registering the directory
(log.Fatal on error).  The second component collects the non-fatal log lines
emitted. -/
def mainStartup (loadErr clientErr watcherErr addErr : Bool) :
    StartupOutcome × List String :=
  if loadErr then (StartupOutcome.fatalExit ("Error loading .env file"), [])
  else
    let logs :=
      if clientErr then ["Error createing Elasticsearch client"] else []
    if watcherErr then (StartupOutcome.fatalExit ("watcher create error"), logs)
    else if addErr then (StartupOutcome.fatalExit ("watcher add error"), logs)
    else (StartupOutcome.running, logs)

/-- C8 counterexample: when only the client constructor fails, startup logs
the failure and the process keeps running — it does not terminate. -/
theorem c8_client_error_counterexample :
    mainStartup false true false false =
      (StartupOutcome.running, ["Error createing Elasticsearch client"]) := by
  rfl

/-- C8 amended: a client-construction failure at startup is not fatal: with
the other startup steps succeeding, the process reaches its running state
whether or not the client constructor failed, the failure being only
logged. -/
theorem c8_client_error_nonfatal (loadErr clientErr watcherErr addErr : Bool)
    (hl : loadErr = false) (hw : watcherErr = false) (ha : addErr = false) :
    (mainStartup loadErr clientErr watcherErr addErr).1
        = StartupOutcome.running ∧
      (mainStartup loadErr clientErr watcherErr addErr).2
        = (if clientErr then ["Error createing Elasticsearch client"]
           else []) := by
  subst hl hw ha
  cases clientErr <;> simp [mainStartup]

/-- Witness for C8's amended theorem with a failing client constructor. -/
theorem c8_client_error_nonfatal_witness :
    (mainStartup false true false false).1 = StartupOutcome.running ∧
      (mainStartup false true false false).2
        = (if true then ["Error createing Elasticsearch client"] else []) :=
  c8_client_error_nonfatal false true false false rfl rfl rfl

end TwampIngest
